import Mathlib

/-!
Verification of the card-visibility & slot-matching engine of the
tile-matching puzzle repository (CardManager / SlotManager / ScoreManager /
LevelManager / LeaderboardManager / Game).

Positions are modelled as rationals (the source uses JS numbers for
coordinates and only ever compares / adds them linearly), ids and types as
naturals, layers as integers.
-/

namespace TileGame

/-- A card of the field, as in `class Card` (constructor fields plus the two
mutable status flags `isDisabled` and `inSlot`; the DOM `element` is
presentation-only and omitted). -/
structure Card where
  id : Nat
  type : Nat
  x : ℚ
  y : ℚ
  layer : Int
  isDisabled : Bool
  inSlot : Bool
deriving DecidableEq, Repr

/-- `CardManager.checkOverlap`: with `cardSize = 70` and `offset = 5` the
source returns `!(c1.x + cardSize - offset <= c2.x || c1.x + offset >= c2.x +
cardSize || c1.y + cardSize - offset <= c2.y || c1.y + offset >= c2.y +
cardSize)`; the boolean negation of the disjunction is written here as the
decision of the negated proposition. -/
def checkOverlap (card1 card2 : Card) : Bool :=
  let cardSize : ℚ := 70
  let offset : ℚ := 5
  decide (¬(card1.x + cardSize - offset ≤ card2.x ∨
            card1.x + offset ≥ card2.x + cardSize ∨
            card1.y + cardSize - offset ≤ card2.y ∨
            card1.y + offset ≥ card2.y + cardSize))

/-- The covering test of `CardManager.updateCardStates`'s inner loop: a card is
covered iff some other active card has strictly greater layer (the source
skips `otherCard.layer <= card.layer`), is not slotted, and overlaps it. -/
def coveredBy (active : List Card) (card : Card) : Bool :=
  active.any fun otherCard =>
    decide (card.layer < otherCard.layer) && !otherCard.inSlot &&
      checkOverlap card otherCard

/-- `CardManager.updateCardStates`: the source filters out slotted cards, sorts
the rest by layer, and for each one sets `isDisabled` to the covering test
against the same filtered collection.  `disable`/`enable` change only
`isDisabled`, which the covering test never reads (it reads `x`, `y`, `layer`,
`inSlot`), so neither the sort nor the sequential in-place mutation affects the
outcome; we model the pass as a map over the card collection that leaves
slotted cards untouched. -/
def updateCardStates (cards : List Card) : List Card :=
  let active := cards.filter fun card => !card.inSlot
  cards.map fun card =>
    if card.inSlot then card
    else { card with isDisabled := coveredBy active card }

/-- C7 — `checkOverlap` is symmetric: for all cards `a` `b` with arbitrary
rational positions, `checkOverlap a b = checkOverlap b a`. -/
theorem checkOverlap_symm (a b : Card) : checkOverlap a b = checkOverlap b a := by
  unfold checkOverlap
  rw [decide_eq_decide]
  constructor <;> intro h <;> push_neg at h ⊢ <;>
    exact ⟨by linarith [h.1], by linarith [h.2.1], by linarith [h.2.2.1], by linarith [h.2.2.2]⟩

/-- C1 — after `updateCardStates`, every non-slotted card is disabled iff some
other non-slotted card of strictly greater layer overlaps it; all other
non-slotted cards are enabled. -/
theorem updateCardStates_disabled_iff (cards : List Card) (c : Card)
    (hm : c ∈ updateCardStates cards) (hs : c.inSlot = false) :
    c.isDisabled = true ↔
      ∃ o ∈ cards, o.inSlot = false ∧ c.layer < o.layer ∧ checkOverlap c o = true := by
  simp only [updateCardStates, List.mem_map] at hm
  obtain ⟨a, ha, rfl⟩ := hm
  by_cases hsa : a.inSlot
  · simp only [if_pos hsa] at hs ⊢
    rw [hsa] at hs; cases hs
  · simp only [if_neg hsa]
    simp only [coveredBy, List.any_eq_true, List.mem_filter, Bool.and_eq_true,
      Bool.not_eq_true', decide_eq_true_eq]
    constructor
    · rintro ⟨o, ⟨ho, hons⟩, ⟨hl, hns⟩, hov⟩
      exact ⟨o, ho, hons, hl, hov⟩
    · rintro ⟨o, ho, hons, hl, hov⟩
      exact ⟨o, ⟨ho, hons⟩, ⟨hl, hons⟩, hov⟩

/-- Witness for C1 at a concrete two-card field: the lower card comes out of
`updateCardStates` disabled and the reported equivalence holds for it. -/
theorem updateCardStates_disabled_iff_witness :
    (Card.mk 0 0 0 0 0 true false) ∈
        updateCardStates [Card.mk 0 0 0 0 0 false false, Card.mk 1 1 10 10 1 false false] ∧
      (Card.mk 0 0 0 0 0 true false).inSlot = false ∧
      ((Card.mk 0 0 0 0 0 true false).isDisabled = true ↔
        ∃ o ∈ [Card.mk 0 0 0 0 0 false false, Card.mk 1 1 10 10 1 false false],
          o.inSlot = false ∧ (Card.mk 0 0 0 0 0 true false).layer < o.layer ∧
            checkOverlap (Card.mk 0 0 0 0 0 true false) o = true) :=
  have hmem : (Card.mk 0 0 0 0 0 true false) ∈
      updateCardStates [Card.mk 0 0 0 0 0 false false, Card.mk 1 1 10 10 1 false false] := by
    norm_num [updateCardStates, coveredBy, checkOverlap, List.filter, List.any]
  ⟨hmem, rfl,
    updateCardStates_disabled_iff
      [Card.mk 0 0 0 0 0 false false, Card.mk 1 1 10 10 1 false false]
      (Card.mk 0 0 0 0 0 true false) hmem rfl⟩

/-! ## Slot queue (`SlotManager`) -/

/-- A slot entry: the `(id, type)` card reference that
`Game.handleCardClick` passes to `SlotManager.addCard` (the back-pointer to
the `Card` object is presentation plumbing and carries the same data). -/
structure SlotCard where
  id : Nat
  type : Nat
deriving DecidableEq, Repr

/-- The ascending list of occupied slot indices holding type `t` — the
source's `typeCount[type]` array, built by one index-ordered scan of the
slots. -/
def typeIndices (slots : List (Option SlotCard)) (t : Nat) : List Nat :=
  slots.enum.filterMap fun p =>
    match p.2 with
    | some c => if c.type = t then some p.1 else none
    | none => none

/-- The largest type present among occupied slots (`0` when empty); bounds the
key scan below. -/
def maxTypePresent (slots : List (Option SlotCard)) : Nat :=
  ((slots.filterMap id).map SlotCard.type).foldr max 0

/-- The types visited by the source's `for (const type in typeCount)` loop
that pass its `typeCount[type].length >= 3` test.  JS iterates the
integer-like keys of `typeCount` in ascending numeric order; scanning
`0..maxTypePresent` and filtering by the same length test visits exactly those
keys in that order (a type with no occupied slot has no key and an empty
index list, so it is skipped either way). -/
def qualifyingTypes (slots : List (Option SlotCard)) : List Nat :=
  (List.range (maxTypePresent slots + 1)).filter fun t =>
    3 ≤ (typeIndices slots t).length

/-- The elimination events of one `checkForElimination` pass: one
`(type, indicesToRemove)` pair per qualifying type, where `indicesToRemove`
is `typeCount[type].slice(0, 3)` — the first three occupied indices. -/
def elimEvents (slots : List (Option SlotCard)) : List (Nat × List Nat) :=
  (qualifyingTypes slots).map fun t => (t, (typeIndices slots t).take 3)

/-- `indicesToRemove.forEach(index => slots[index] = null)`. -/
def removeIndices (slots : List (Option SlotCard)) (idxs : List Nat) :
    List (Option SlotCard) :=
  idxs.foldl (fun s i => s.set i none) slots

/-- `SlotManager.compactSlots`: collect the non-null entries, clear the array,
refill from the left — i.e. the occupied entries in order followed by nulls. -/
def compactSlots (slots : List (Option SlotCard)) : List (Option SlotCard) :=
  let cards := slots.filterMap id
  cards.map some ++ List.replicate (slots.length - cards.length) none

/-- `SlotManager.checkForElimination`, returning
`(eliminated, slots, events)`: the type → indices table is computed once up
front, every type with ≥ 3 occupied slots raises one event and has its first
three indices nulled, and if anything was eliminated the slots are
left-compacted. -/
def checkForElimination (slots : List (Option SlotCard)) :
    Bool × List (Option SlotCard) × List (Nat × List Nat) :=
  let events := elimEvents slots
  let slots' := events.foldl (fun s ev => removeIndices s ev.2) slots
  let eliminated := !events.isEmpty
  (eliminated, if eliminated then compactSlots slots' else slots', events)

/-- `SlotManager.addCard`: find the first empty slot (ascending); if none,
report failure without mutation; otherwise occupy it and evaluate
elimination.  Returns `(success, slots, events)`. -/
def addCard (slots : List (Option SlotCard)) (cardData : SlotCard) :
    Bool × List (Option SlotCard) × List (Nat × List Nat) :=
  match slots.findIdx? (fun s => decide (s = none)) with
  | none => (false, slots, [])
  | some emptyIndex =>
    let slots1 := slots.set emptyIndex (some cardData)
    let r := checkForElimination slots1
    (true, r.2.1, r.2.2)

/-- `SlotManager.isFull`: every slot non-null. -/
def isFull (slots : List (Option SlotCard)) : Bool :=
  slots.all fun s => decide (s ≠ none)

/-- `SlotManager.getCardCount`: number of non-null slots. -/
def getCardCount (slots : List (Option SlotCard)) : Nat :=
  (slots.filter fun s => decide (s ≠ none)).length

/-- `SlotManager.clearAll` (and `initialize`): all slots null. -/
def slotsClearAll (slots : List (Option SlotCard)) : List (Option SlotCard) :=
  List.replicate slots.length none

/-- Helper: a filter over `List.range` whose predicate never holds is empty. -/
theorem filter_range_of_false (P : Nat → Bool) :
    ∀ n : Nat, (∀ t, t < n → P t = false) → (List.range n).filter P = [] := by
  intro n
  induction n with
  | zero => intro _; rfl
  | succ k ih =>
    intro h
    rw [List.range_succ, List.filter_append, ih fun t ht => h t (Nat.lt_succ_of_lt ht)]
    simp [h k (Nat.lt_succ_self k)]

/-- Helper: a filter over `List.range` whose predicate holds exactly at `a`
is `[a]`. -/
theorem filter_range_of_single (P : Nat → Bool) :
    ∀ n a : Nat, a < n → (∀ t, t < n → (P t = true ↔ t = a)) →
      (List.range n).filter P = [a] := by
  intro n
  induction n with
  | zero => intro a ha _; omega
  | succ k ih =>
    intro a ha h
    rw [List.range_succ, List.filter_append]
    by_cases hak : a = k
    · subst hak
      have hnil : (List.range a).filter P = [] := by
        apply filter_range_of_false
        intro t ht
        cases hp : P t with
        | false => rfl
        | true =>
          have : t = a := (h t (Nat.lt_succ_of_lt ht)).mp hp
          omega
      rw [hnil]
      simp [(h a (Nat.lt_succ_self a)).mpr rfl]
    · have hak' : a < k := by omega
      rw [ih a hak' fun t ht => h t (Nat.lt_succ_of_lt ht)]
      have hPk : P k = false := by
        cases hp : P k with
        | false => rfl
        | true =>
          have : k = a := (h k (Nat.lt_succ_self k)).mp hp
          omega
      simp [hPk]

/-- Helper: a filter over `List.range` whose predicate holds exactly at
`a < b` is `[a, b]`. -/
theorem filter_range_of_pair (P : Nat → Bool) :
    ∀ n a b : Nat, a < b → b < n → (∀ t, t < n → (P t = true ↔ (t = a ∨ t = b))) →
      (List.range n).filter P = [a, b] := by
  intro n
  induction n with
  | zero => intro a b _ hb _; omega
  | succ k ih =>
    intro a b hab hb h
    rw [List.range_succ, List.filter_append]
    by_cases hbk : b = k
    · subst hbk
      have hsingle : (List.range b).filter P = [a] := by
        apply filter_range_of_single P b a (by omega)
        intro t ht
        constructor
        · intro hp
          rcases (h t (Nat.lt_succ_of_lt ht)).mp hp with h' | h'
          · exact h'
          · omega
        · intro h'
          exact (h t (Nat.lt_succ_of_lt ht)).mpr (Or.inl h')
      rw [hsingle]
      simp [(h b (Nat.lt_succ_self b)).mpr (Or.inr rfl)]
    · have hbk' : b < k := by omega
      rw [ih a b hab hbk' fun t ht => h t (Nat.lt_succ_of_lt ht)]
      have hPk : P k = false := by
        cases hp : P k with
        | false => rfl
        | true =>
          rcases (h k (Nat.lt_succ_self k)).mp hp with h' | h' <;> omega
      simp [hPk]

/-- C2 — for the slot state whose occupied types in index order are
`[A,A,B,A,C,B,B]` (`A`, `B`, `C` pairwise distinct), one
`checkForElimination` pass reports an elimination, raises exactly two events
— `(A, [0,1,3])` and `(B, [2,5,6])`, the first three occupied indices of each
qualifying type — and after left-compaction exactly one slot is occupied and
it holds the type-`C` entry. -/
theorem elimination_pass_AABACBB (A B C : Nat) (hAB : A ≠ B) (hAC : A ≠ C) (hBC : B ≠ C) :
    (checkForElimination
        [some ⟨0,A⟩, some ⟨1,A⟩, some ⟨2,B⟩, some ⟨3,A⟩,
         some ⟨4,C⟩, some ⟨5,B⟩, some ⟨6,B⟩]).1 = true ∧
    (checkForElimination
        [some ⟨0,A⟩, some ⟨1,A⟩, some ⟨2,B⟩, some ⟨3,A⟩,
         some ⟨4,C⟩, some ⟨5,B⟩, some ⟨6,B⟩]).2.2.length = 2 ∧
    (A, [0,1,3]) ∈ (checkForElimination
        [some ⟨0,A⟩, some ⟨1,A⟩, some ⟨2,B⟩, some ⟨3,A⟩,
         some ⟨4,C⟩, some ⟨5,B⟩, some ⟨6,B⟩]).2.2 ∧
    (B, [2,5,6]) ∈ (checkForElimination
        [some ⟨0,A⟩, some ⟨1,A⟩, some ⟨2,B⟩, some ⟨3,A⟩,
         some ⟨4,C⟩, some ⟨5,B⟩, some ⟨6,B⟩]).2.2 ∧
    (checkForElimination
        [some ⟨0,A⟩, some ⟨1,A⟩, some ⟨2,B⟩, some ⟨3,A⟩,
         some ⟨4,C⟩, some ⟨5,B⟩, some ⟨6,B⟩]).2.1 =
      [some ⟨4,C⟩, none, none, none, none, none, none] ∧
    getCardCount (checkForElimination
        [some ⟨0,A⟩, some ⟨1,A⟩, some ⟨2,B⟩, some ⟨3,A⟩,
         some ⟨4,C⟩, some ⟨5,B⟩, some ⟨6,B⟩]).2.1 = 1 := by
  set slots0 : List (Option SlotCard) :=
    [some ⟨0,A⟩, some ⟨1,A⟩, some ⟨2,B⟩, some ⟨3,A⟩,
     some ⟨4,C⟩, some ⟨5,B⟩, some ⟨6,B⟩] with hslots0
  have tiA : typeIndices slots0 A = [0,1,3] := by
    simp [hslots0, typeIndices, List.enum, List.enumFrom, List.filterMap, Ne.symm hAB, Ne.symm hAC]
  have tiB : typeIndices slots0 B = [2,5,6] := by
    simp [hslots0, typeIndices, List.enum, List.enumFrom, List.filterMap, hAB, Ne.symm hBC]
  have tiC : typeIndices slots0 C = [4] := by
    simp [hslots0, typeIndices, List.enum, List.enumFrom, List.filterMap, hAC, hBC]
  have tiOther : ∀ t, A ≠ t → B ≠ t → C ≠ t → typeIndices slots0 t = [] := by
    intro t h1 h2 h3
    simp [hslots0, typeIndices, List.enum, List.enumFrom, List.filterMap, h1, h2, h3]
  have hMle : A ≤ maxTypePresent slots0 ∧ B ≤ maxTypePresent slots0 := by
    simp only [hslots0, maxTypePresent, List.filterMap, List.map, List.foldr, Option.some.injEq]
    constructor <;> omega
  have hPiff : ∀ t, t < maxTypePresent slots0 + 1 →
      ((decide (3 ≤ (typeIndices slots0 t).length) = true) ↔ (t = A ∨ t = B)) := by
    intro t _
    by_cases h1 : A = t
    · subst h1; simp [tiA]
    · by_cases h2 : B = t
      · subst h2; simp [tiB]
      · by_cases h3 : C = t
        · subst h3; simp [tiC, Ne.symm h1, Ne.symm h2]
        · simp [tiOther t h1 h2 h3, Ne.symm h1, Ne.symm h2]
  have hqual : qualifyingTypes slots0 = [A, B] ∨ qualifyingTypes slots0 = [B, A] := by
    rcases hAB.lt_or_lt with hab | hab
    · left
      unfold qualifyingTypes
      apply filter_range_of_pair _ _ A B hab (by omega)
      intro t ht
      exact (hPiff t ht).trans (by tauto)
    · right
      unfold qualifyingTypes
      apply filter_range_of_pair _ _ B A hab (by omega)
      intro t ht
      exact (hPiff t ht).trans (by tauto)
  rcases hqual with hq | hq
  · have hev : elimEvents slots0 = [(A, [0,1,3]), (B, [2,5,6])] := by
      simp [elimEvents, hq, tiA, tiB]
    have hfin : checkForElimination slots0 =
        (true, [some ⟨4,C⟩, none, none, none, none, none, none],
          [(A, [0,1,3]), (B, [2,5,6])]) := by
      simp only [checkForElimination, hev]
      rfl
    rw [hfin]
    refine ⟨rfl, rfl, by simp, by simp, rfl, rfl⟩
  · have hev : elimEvents slots0 = [(B, [2,5,6]), (A, [0,1,3])] := by
      simp [elimEvents, hq, tiA, tiB]
    have hfin : checkForElimination slots0 =
        (true, [some ⟨4,C⟩, none, none, none, none, none, none],
          [(B, [2,5,6]), (A, [0,1,3])]) := by
      simp only [checkForElimination, hev]
      rfl
    rw [hfin]
    refine ⟨rfl, rfl, by simp, by simp, rfl, rfl⟩


/-- Witness for C2 at `A = 0`, `B = 1`, `C = 2`. -/
theorem elimination_pass_AABACBB_witness :
    ((0 : Nat) ≠ 1 ∧ (0 : Nat) ≠ 2 ∧ (1 : Nat) ≠ 2) ∧
    ((checkForElimination
        [some ⟨0,0⟩, some ⟨1,0⟩, some ⟨2,1⟩, some ⟨3,0⟩,
         some ⟨4,2⟩, some ⟨5,1⟩, some ⟨6,1⟩]).1 = true ∧
      (checkForElimination
        [some ⟨0,0⟩, some ⟨1,0⟩, some ⟨2,1⟩, some ⟨3,0⟩,
         some ⟨4,2⟩, some ⟨5,1⟩, some ⟨6,1⟩]).2.2.length = 2 ∧
      ((0 : Nat), [0,1,3]) ∈ (checkForElimination
        [some ⟨0,0⟩, some ⟨1,0⟩, some ⟨2,1⟩, some ⟨3,0⟩,
         some ⟨4,2⟩, some ⟨5,1⟩, some ⟨6,1⟩]).2.2 ∧
      ((1 : Nat), [2,5,6]) ∈ (checkForElimination
        [some ⟨0,0⟩, some ⟨1,0⟩, some ⟨2,1⟩, some ⟨3,0⟩,
         some ⟨4,2⟩, some ⟨5,1⟩, some ⟨6,1⟩]).2.2 ∧
      (checkForElimination
        [some ⟨0,0⟩, some ⟨1,0⟩, some ⟨2,1⟩, some ⟨3,0⟩,
         some ⟨4,2⟩, some ⟨5,1⟩, some ⟨6,1⟩]).2.1 =
        [some ⟨4,2⟩, none, none, none, none, none, none] ∧
      getCardCount (checkForElimination
        [some ⟨0,0⟩, some ⟨1,0⟩, some ⟨2,1⟩, some ⟨3,0⟩,
         some ⟨4,2⟩, some ⟨5,1⟩, some ⟨6,1⟩]).2.1 = 1) :=
  ⟨⟨by decide, by decide, by decide⟩,
    elimination_pass_AABACBB 0 1 2 (by decide) (by decide) (by decide)⟩

/-- Nulling out a list of indices preserves the number of slots. -/
theorem length_removeIndices (idxs : List Nat) :
    ∀ slots : List (Option SlotCard), (removeIndices slots idxs).length = slots.length := by
  induction idxs with
  | nil => intro s; rfl
  | cons i rest ih =>
    intro s
    show (removeIndices (s.set i none) rest).length = s.length
    rw [ih, List.length_set]

/-- `compactSlots` preserves the number of slots. -/
theorem length_compactSlots (slots : List (Option SlotCard)) :
    (compactSlots slots).length = slots.length := by
  have h := List.length_filterMap_le id slots
  simp only [compactSlots, List.length_append, List.length_map, List.length_replicate]
  omega

/-- The per-event removal fold preserves the number of slots. -/
theorem length_foldl_removeIndices (evs : List (Nat × List Nat)) :
    ∀ slots : List (Option SlotCard),
      (evs.foldl (fun s ev => removeIndices s ev.2) slots).length = slots.length := by
  induction evs with
  | nil => intro s; rfl
  | cons e rest ih =>
    intro s
    show (rest.foldl _ (removeIndices s e.2)).length = s.length
    rw [ih, length_removeIndices]

/-- `checkForElimination` preserves the number of slots. -/
theorem length_checkForElimination (slots : List (Option SlotCard)) :
    (checkForElimination slots).2.1.length = slots.length := by
  have hf := length_foldl_removeIndices (elimEvents slots) slots
  have hc := length_compactSlots ((elimEvents slots).foldl (fun s ev => removeIndices s ev.2) slots)
  cases h : (elimEvents slots).isEmpty with
  | true => simpa [checkForElimination, h] using hf
  | false =>
    simp only [checkForElimination, h, Bool.not_false, if_pos]
    omega

/-- `addCard` preserves the number of slots. -/
theorem length_addCard (slots : List (Option SlotCard)) (c : SlotCard) :
    (addCard slots c).2.1.length = slots.length := by
  unfold addCard
  cases h : slots.findIdx? (fun s => decide (s = none)) with
  | none => rfl
  | some i =>
    simp only []
    rw [length_checkForElimination, List.length_set]

/-- The reachable slot-queue states: `initialize` creates the 7 null slots and
the state then evolves only through `addCard` (which runs the
elimination/compaction pass) and `clearAll`. -/
inductive ReachableSlots : List (Option SlotCard) → Prop
  | init : ReachableSlots (List.replicate 7 none)
  | add (slots : List (Option SlotCard)) (c : SlotCard) :
      ReachableSlots slots → ReachableSlots (addCard slots c).2.1
  | clear (slots : List (Option SlotCard)) :
      ReachableSlots slots → ReachableSlots (slotsClearAll slots)

/-- Every reachable slot-queue state still has exactly 7 slots. -/
theorem ReachableSlots.length_eq {slots : List (Option SlotCard)}
    (h : ReachableSlots slots) : slots.length = 7 := by
  induction h with
  | init => simp
  | add s c _ ih => rw [length_addCard, ih]
  | clear s _ ih => simp [slotsClearAll, ih]

/-- C3 — for every reachable slot-queue state, the number of occupied slots
never exceeds the capacity 7; `addCard` on a full queue returns failure and
leaves the slot contents unchanged; on a non-full queue it returns success and
occupies the first empty slot in ascending index order (the occupied index `i`
is empty, every smaller index is occupied, and the result is the
elimination pass run on the queue with the card placed at `i`). -/
theorem slotQueue_capacity_and_add (slots : List (Option SlotCard)) (c : SlotCard)
    (hr : ReachableSlots slots) :
    getCardCount slots ≤ 7 ∧
    (isFull slots = true → addCard slots c = (false, slots, [])) ∧
    (isFull slots = false →
      (addCard slots c).1 = true ∧
      ∃ i, i < slots.length ∧ slots[i]? = some none ∧
        (∀ j, j < i → slots[j]? ≠ some none) ∧
        (addCard slots c).2.1 = (checkForElimination (slots.set i (some c))).2.1 ∧
        (addCard slots c).2.2 = (checkForElimination (slots.set i (some c))).2.2) := by
  refine ⟨?_, ?_, ?_⟩
  · calc getCardCount slots ≤ slots.length := List.length_filter_le _ _
      _ = 7 := hr.length_eq
  · intro hfull
    have hfind : slots.findIdx? (fun s => decide (s = none)) = none := by
      rw [List.findIdx?_eq_none_iff]
      intro x hx
      have := (List.all_eq_true.mp hfull) x hx
      simp only [decide_eq_true_eq] at this ⊢
      simpa using this
    simp [addCard, hfind]
  · intro hnotfull
    have hex : ∃ x ∈ slots, (fun s => decide (s = none)) x = true := by
      have h1 : slots.all (fun s => decide (s ≠ none)) = false := hnotfull
      rcases List.all_eq_false.mp h1 with ⟨x, hx, hpx⟩
      refine ⟨x, hx, ?_⟩
      simp only [Bool.not_eq_true, decide_eq_false_iff_not, not_not] at hpx
      simp [hpx]
    have hlt : slots.findIdx (fun s => decide (s = none)) < slots.length :=
      List.findIdx_lt_length_of_exists hex
    set i := slots.findIdx (fun s => decide (s = none)) with hi
    have hfind : slots.findIdx? (fun s => decide (s = none)) = some i :=
      List.findIdx?_eq_some_iff_findIdx_eq.mpr ⟨hlt, rfl⟩
    have hati : slots[i]? = some none := by
      rw [List.getElem?_eq_getElem hlt]
      have := @List.findIdx_getElem _ (fun s => decide (s = none)) slots hlt
      simpa using this
    refine ⟨by simp [addCard, hfind], i, hlt, hati, ?_, by simp [addCard, hfind], by simp [addCard, hfind]⟩
    intro j hj hsome
    have hjlt : j < slots.length := lt_trans hj hlt
    have := @List.not_of_lt_findIdx _ (fun s => decide (s = none)) slots j (hi ▸ hj)
    rw [List.getElem?_eq_getElem hjlt] at hsome
    simp only [decide_eq_false_iff_not] at this
    exact this (by injection hsome)


/-- Witness for C3 at the initial (empty, reachable) queue. -/
theorem slotQueue_capacity_and_add_witness :
    getCardCount (List.replicate 7 (none : Option SlotCard)) ≤ 7 ∧
    (isFull (List.replicate 7 (none : Option SlotCard)) = true →
      addCard (List.replicate 7 none) ⟨0, 0⟩ = (false, List.replicate 7 none, [])) ∧
    (isFull (List.replicate 7 (none : Option SlotCard)) = false →
      (addCard (List.replicate 7 none) ⟨0, 0⟩).1 = true ∧
      ∃ i, i < (List.replicate 7 (none : Option SlotCard)).length ∧
        (List.replicate 7 (none : Option SlotCard))[i]? = some none ∧
        (∀ j, j < i → (List.replicate 7 (none : Option SlotCard))[j]? ≠ some none) ∧
        (addCard (List.replicate 7 none) ⟨0, 0⟩).2.1 =
          (checkForElimination ((List.replicate 7 none).set i (some ⟨0, 0⟩))).2.1 ∧
        (addCard (List.replicate 7 none) ⟨0, 0⟩).2.2 =
          (checkForElimination ((List.replicate 7 none).set i (some ⟨0, 0⟩))).2.2) :=
  slotQueue_capacity_and_add (List.replicate 7 none) ⟨0, 0⟩ ReachableSlots.init

/-! ## Score / combo tracker (`ScoreManager`) -/

/-- `ScoreManager`'s counters (`highScore` mirrors the value persisted through
the external store; persistence itself is a boundary effect). -/
structure ScoreState where
  currentScore : Nat
  highScore : Nat
  combo : Nat
  maxCombo : Nat
  eliminationCount : Nat
deriving DecidableEq, Repr

/-- `ScoreManager.addEliminationScore`: bump the elimination counter, compute
`baseScore = cardsEliminated * 10`, increment the combo, add the combo bonus
`combo * 20`, accumulate the total, and update max-combo and high score.
Returns `(totalScore, new state)`. -/
def addEliminationScore (s : ScoreState) (cardsEliminated : Nat) : Nat × ScoreState :=
  let eliminationCount := s.eliminationCount + 1
  let baseScore := cardsEliminated * 10
  let combo := s.combo + 1
  let comboBonus := combo * 20
  let totalScore := baseScore + comboBonus
  let currentScore := s.currentScore + totalScore
  let maxCombo := if combo > s.maxCombo then combo else s.maxCombo
  let highScore := if currentScore > s.highScore then currentScore else s.highScore
  (totalScore, ⟨currentScore, highScore, combo, maxCombo, eliminationCount⟩)

/-- `ScoreManager.resetCombo`: zero the combo, touching nothing else. -/
def resetCombo (s : ScoreState) : ScoreState := { s with combo := 0 }

/-- C4 — from any state with combo 0, three consecutive
`addEliminationScore 3` calls return 50, 70, 90 with combo sequence 1, 2, 3
and add 210 to the running total, and after `resetCombo` a further such call
returns 50. -/
theorem score_combo_sequence (s : ScoreState) (h : s.combo = 0) :
    (addEliminationScore s 3).1 = 50 ∧
    (addEliminationScore s 3).2.combo = 1 ∧
    (addEliminationScore (addEliminationScore s 3).2 3).1 = 70 ∧
    (addEliminationScore (addEliminationScore s 3).2 3).2.combo = 2 ∧
    (addEliminationScore (addEliminationScore (addEliminationScore s 3).2 3).2 3).1 = 90 ∧
    (addEliminationScore (addEliminationScore (addEliminationScore s 3).2 3).2 3).2.combo = 3 ∧
    (addEliminationScore (addEliminationScore (addEliminationScore s 3).2 3).2 3).2.currentScore
      = s.currentScore + 210 ∧
    (addEliminationScore (resetCombo
      (addEliminationScore (addEliminationScore (addEliminationScore s 3).2 3).2 3).2) 3).1 = 50 := by
  simp [addEliminationScore, resetCombo, h]

/-- Witness for C4 at the all-zero initial score state. -/
theorem score_combo_sequence_witness :
    (ScoreState.mk 0 0 0 0 0).combo = 0 ∧
    ((addEliminationScore (ScoreState.mk 0 0 0 0 0) 3).1 = 50 ∧
     (addEliminationScore (ScoreState.mk 0 0 0 0 0) 3).2.combo = 1 ∧
     (addEliminationScore (addEliminationScore (ScoreState.mk 0 0 0 0 0) 3).2 3).1 = 70 ∧
     (addEliminationScore (addEliminationScore (ScoreState.mk 0 0 0 0 0) 3).2 3).2.combo = 2 ∧
     (addEliminationScore (addEliminationScore (addEliminationScore (ScoreState.mk 0 0 0 0 0) 3).2 3).2 3).1 = 90 ∧
     (addEliminationScore (addEliminationScore (addEliminationScore (ScoreState.mk 0 0 0 0 0) 3).2 3).2 3).2.combo = 3 ∧
     (addEliminationScore (addEliminationScore (addEliminationScore (ScoreState.mk 0 0 0 0 0) 3).2 3).2 3).2.currentScore
       = (ScoreState.mk 0 0 0 0 0).currentScore + 210 ∧
     (addEliminationScore (resetCombo
       (addEliminationScore (addEliminationScore (addEliminationScore (ScoreState.mk 0 0 0 0 0) 3).2 3).2 3).2) 3).1 = 50) :=
  ⟨rfl, score_combo_sequence (ScoreState.mk 0 0 0 0 0) rfl⟩




/-! ## Level layout generator (`LevelManager`) -/

/-- The type multiset built at the top of `LevelManager.generateLevelLayout`
before the `maxCards` trim: for each `type` in `0..cardTypes-1`, it pushes
`cardsPerType` groups of three copies of `type`. -/
def buildCardTypes (cardTypes cardsPerType : Nat) : List Nat :=
  (List.range cardTypes).flatMap fun t =>
    (List.range cardsPerType).flatMap fun _ => [t, t, t]

/-- The `maxCards` trim of `generateLevelLayout`: if the total exceeds
`maxCards`, compute `removeGroups = ceil((total - maxCards) / 3)` and pop
three entries per group from the end — i.e. keep the prefix of length
`total - 3 * removeGroups`. -/
def trimCardTypes (l : List Nat) (maxCards : Nat) : List Nat :=
  if l.length > maxCards then
    let removeCount := l.length - maxCards
    let removeGroups := (removeCount + 2) / 3
    l.take (l.length - 3 * removeGroups)
  else l

/-- The untrimmed type multiset has `cardTypes * cardsPerType * 3` entries. -/
theorem length_buildCardTypes (cardTypes cardsPerType : Nat) :
    (buildCardTypes cardTypes cardsPerType).length = cardTypes * (cardsPerType * 3) := by
  have inner : ∀ k : Nat, ((List.range cardsPerType).flatMap fun _ => [k, k, k]).length
      = cardsPerType * 3 := by
    intro k
    induction cardsPerType with
    | zero => simp
    | succ m ihm =>
      rw [List.range_succ, List.flatMap_append, List.length_append, ihm]
      simp [Nat.succ_mul]
  induction cardTypes with
  | zero => simp [buildCardTypes]
  | succ k ih =>
    unfold buildCardTypes at *
    rw [List.range_succ, List.flatMap_append, List.length_append, ih]
    simp [inner, Nat.succ_mul]

/-- C5 — for every level configuration, the generated type multiset has a
length that is a multiple of 3 both before and after the `maxCards` trim, the
trimmed length is at most `maxCards`, and trimming removes only whole groups
of 3 from the end (the result is a prefix whose length differs by a multiple
of 3). -/
theorem level_type_multiset_multiple_of_three (cardTypes cardsPerType maxCards : Nat) :
    3 ∣ (buildCardTypes cardTypes cardsPerType).length ∧
    3 ∣ (trimCardTypes (buildCardTypes cardTypes cardsPerType) maxCards).length ∧
    (trimCardTypes (buildCardTypes cardTypes cardsPerType) maxCards).length ≤ maxCards ∧
    ∃ k, trimCardTypes (buildCardTypes cardTypes cardsPerType) maxCards =
      (buildCardTypes cardTypes cardsPerType).take
        ((buildCardTypes cardTypes cardsPerType).length - 3 * k) := by
  set l := buildCardTypes cardTypes cardsPerType with hl
  have hlen : l.length = cardTypes * (cardsPerType * 3) := length_buildCardTypes _ _
  have h3 : 3 ∣ l.length := ⟨cardTypes * cardsPerType, by rw [hlen]; ring⟩
  obtain ⟨m, hm⟩ := h3
  unfold trimCardTypes
  by_cases hgt : l.length > maxCards
  · rw [if_pos hgt]
    have htk : (l.take (l.length - 3 * ((l.length - maxCards + 2) / 3))).length
        = l.length - 3 * ((l.length - maxCards + 2) / 3) := by
      rw [List.length_take]
      omega
    refine ⟨⟨m, hm⟩, ?_, ?_, ⟨(l.length - maxCards + 2) / 3, rfl⟩⟩
    · rw [htk]; omega
    · rw [htk]; omega
  · rw [if_neg hgt]
    refine ⟨⟨m, hm⟩, ⟨m, hm⟩, by omega, ⟨0, by simp⟩⟩

/-- A `(x, y, layer)` position tuple as pushed by `generateCardPositions`. -/
structure CardPos where
  x : ℚ
  y : ℚ
  layer : Nat
deriving DecidableEq, Repr

/-- The outer loop of `LevelManager.generateCardPositions`, modelled from the
source's control flow.  Each layer iteration would run an inner loop of
`cardsInLayer = Math.ceil(count / layers)` iterations whose body computes
`layerStartX = (effectiveWidth - layerCols * (cardSize + gap)) / 2` — but
`effectiveWidth` and `effectiveHeight` are `const`s local to
`generateLevelLayout`; inside `generateCardPositions` they are unbound
identifiers, so the first execution of the inner-loop body throws a
`ReferenceError` (before that line only in-scope locals and `Math.random`
are touched).  Entering the body is therefore modelled as `Except.error`;
the rest of the body (the random placement and the push) is unreachable.
If the inner loop runs zero times the outer loop checks
`positions.length >= count` and breaks, returning the positions. -/
def genPosGo (count layers : Nat) : Nat → List CardPos → Except String (List CardPos)
  | 0, positions => .ok positions
  | remaining + 1, positions =>
    let cardsInLayer := (count + (layers - 1)) / layers
    if cardsInLayer = 0 then
      if positions.length ≥ count then .ok positions
      else genPosGo count layers remaining positions
    else .error "ReferenceError: effectiveWidth is not defined"

/-- `LevelManager.generateCardPositions` (outcome: either the positions list,
or the thrown `ReferenceError`). -/
def generateCardPositions (count layers : Nat) : Except String (List CardPos) :=
  genPosGo count layers layers []

/-- C6 — contrary to the claim, `generateCardPositions` errors on every
non-degenerate input: whenever at least one card and one layer are requested,
it throws `ReferenceError: effectiveWidth is not defined` instead of
returning `count` positions, so no card is ever handed to `createCard`. -/
theorem generateCardPositions_throws (count layers : Nat)
    (hc : 1 ≤ count) (hl : 1 ≤ layers) :
    generateCardPositions count layers =
      .error "ReferenceError: effectiveWidth is not defined" := by
  obtain ⟨r, hr⟩ : ∃ r, layers = r + 1 := ⟨layers - 1, by omega⟩
  subst hr
  have hcl : (count + (r + 1 - 1)) / (r + 1) ≠ 0 := by
    rw [Nat.div_ne_zero_iff (by omega)]
    omega
  unfold generateCardPositions genPosGo
  simp [hcl]
  intro h
  exact absurd h (by simpa using hcl)

/-- Witness for C6 at the level-1 configuration's values (18 cards after the
trim, 1 layer). -/
theorem generateCardPositions_throws_witness :
    1 ≤ 18 ∧ 1 ≤ 1 ∧
    generateCardPositions 18 1 =
      .error "ReferenceError: effectiveWidth is not defined" :=
  ⟨by decide, by decide, generateCardPositions_throws 18 1 (by decide) (by decide)⟩

/-! ## Leaderboard (`LeaderboardManager`) -/

/-- A leaderboard entry as built by `LeaderboardManager.addScore`. -/
structure LBEntry where
  rank : Nat
  score : Nat
  level : Nat
  combo : Nat
  date : String
  playerName : String
deriving DecidableEq, Repr

/-- `LeaderboardManager.addScore`: push the new entry, sort by score
descending (JS `Array.prototype.sort` is stable; `insertionSort` with
"greater-or-equal-score goes first" is the same stable descending sort),
keep the top 10, renumber ranks `1..N`, and report whether the entry
"entered".  The source's membership check
`this.leaderboard.some(entry => entry.score === entry.score && ...)`
shadows the outer `entry` with the callback parameter, so every conjunct
compares a field of a stored entry with itself; the reported result is
therefore just "is the stored list non-empty". -/
def addScore (board : List LBEntry) (e : LBEntry) : Bool × List LBEntry :=
  let board1 := board ++ [e]
  let board2 := List.insertionSort (fun a b => b.score ≤ a.score) board1
  let board3 := board2.take 10
  let board4 := board3.enum.map fun p => { p.2 with rank := p.1 + 1 }
  let entered := board4.any fun en =>
    decide (en.score = en.score) && decide (en.date = en.date) &&
      decide (en.level = en.level) && decide (en.combo = en.combo)
  (entered, board4)

/-- `LeaderboardManager.canEnterLeaderboard`: true when fewer than 10 entries
are stored, or when the score strictly exceeds the last (lowest) stored
score.  (The `none` branch is unreachable: the else branch implies at least
10 entries.) -/
def canEnterLeaderboard (board : List LBEntry) (score : Nat) : Bool :=
  if board.length < 10 then true
  else
    match board.getLast? with
    | some last => decide (score > last.score)
    | none => false

/-- C8 — evaluation at the claim's scenario, a full 10-entry leaderboard with
scores 1000..100.  Adding a score-5 entry leaves the stored list unchanged
**but reports `true` ("entered")**, not the "not entered" the claim states —
the self-shadowed `some` check returns `true` for any non-empty list (while
`canEnterLeaderboard` correctly classifies the same score as not qualifying).
Adding a score-950 entry evicts the previous lowest (score-100) entry. -/
theorem leaderboard_full_low_add_eval :
    addScore
        [⟨1, 1000, 1, 0, "d", "p"⟩, ⟨2, 900, 1, 0, "d", "p"⟩, ⟨3, 800, 1, 0, "d", "p"⟩,
         ⟨4, 700, 1, 0, "d", "p"⟩, ⟨5, 600, 1, 0, "d", "p"⟩, ⟨6, 500, 1, 0, "d", "p"⟩,
         ⟨7, 400, 1, 0, "d", "p"⟩, ⟨8, 300, 1, 0, "d", "p"⟩, ⟨9, 200, 1, 0, "d", "p"⟩,
         ⟨10, 100, 1, 0, "d", "p"⟩] ⟨0, 5, 1, 0, "d", "p"⟩ =
      (true,
        [⟨1, 1000, 1, 0, "d", "p"⟩, ⟨2, 900, 1, 0, "d", "p"⟩, ⟨3, 800, 1, 0, "d", "p"⟩,
         ⟨4, 700, 1, 0, "d", "p"⟩, ⟨5, 600, 1, 0, "d", "p"⟩, ⟨6, 500, 1, 0, "d", "p"⟩,
         ⟨7, 400, 1, 0, "d", "p"⟩, ⟨8, 300, 1, 0, "d", "p"⟩, ⟨9, 200, 1, 0, "d", "p"⟩,
         ⟨10, 100, 1, 0, "d", "p"⟩]) ∧
    canEnterLeaderboard
        [⟨1, 1000, 1, 0, "d", "p"⟩, ⟨2, 900, 1, 0, "d", "p"⟩, ⟨3, 800, 1, 0, "d", "p"⟩,
         ⟨4, 700, 1, 0, "d", "p"⟩, ⟨5, 600, 1, 0, "d", "p"⟩, ⟨6, 500, 1, 0, "d", "p"⟩,
         ⟨7, 400, 1, 0, "d", "p"⟩, ⟨8, 300, 1, 0, "d", "p"⟩, ⟨9, 200, 1, 0, "d", "p"⟩,
         ⟨10, 100, 1, 0, "d", "p"⟩] 5 = false ∧
    (addScore
        [⟨1, 1000, 1, 0, "d", "p"⟩, ⟨2, 900, 1, 0, "d", "p"⟩, ⟨3, 800, 1, 0, "d", "p"⟩,
         ⟨4, 700, 1, 0, "d", "p"⟩, ⟨5, 600, 1, 0, "d", "p"⟩, ⟨6, 500, 1, 0, "d", "p"⟩,
         ⟨7, 400, 1, 0, "d", "p"⟩, ⟨8, 300, 1, 0, "d", "p"⟩, ⟨9, 200, 1, 0, "d", "p"⟩,
         ⟨10, 100, 1, 0, "d", "p"⟩] ⟨0, 950, 1, 0, "d", "p"⟩).2 =
      [⟨1, 1000, 1, 0, "d", "p"⟩, ⟨2, 950, 1, 0, "d", "p"⟩, ⟨3, 900, 1, 0, "d", "p"⟩,
       ⟨4, 800, 1, 0, "d", "p"⟩, ⟨5, 700, 1, 0, "d", "p"⟩, ⟨6, 600, 1, 0, "d", "p"⟩,
       ⟨7, 500, 1, 0, "d", "p"⟩, ⟨8, 400, 1, 0, "d", "p"⟩, ⟨9, 300, 1, 0, "d", "p"⟩,
       ⟨10, 200, 1, 0, "d", "p"⟩] := by
  refine ⟨?_, ?_, ?_⟩ <;> rfl



/-! ## Click handling (`Game`) -/

/-- The `removeCard` loop of `Game.handleCardsEliminated`: delete each
eliminated id from the field.  (`CardManager.removeCard` deletes the map
entry with that id; ids key the map, so filtering by id is the same
deletion.) -/
def removeIds (cards : List Card) (ids : List Nat) : List Card :=
  ids.foldl (fun cs i => cs.filter fun c => decide (c.id ≠ i)) cards

/-- The synchronous effect of one `cardClicked` event on the card field and
the slot queue: the guard in `Game.bindGameEvents` (`isPlaying`/`isPaused`,
card lookup, `!card.isDisabled` — note there is **no `inSlot` check**)
followed by `Game.handleCardClick`.  On success the source adds the card
reference to the slots, which synchronously dispatches one `cardsEliminated`
event per qualifying type; each event handler reads the (not yet nulled)
slots at the event's indices, removes those card ids from the field, and
recomputes visibility; afterwards `handleCardClick` marks the clicked card
slotted and recomputes visibility again.  Score keeping, win/loss
bookkeeping and DOM updates also run but never touch the card list or the
slot array, so this projection returns exactly `(cards, slots)`. -/
def clickStep (isPlaying isPaused : Bool) (cards : List Card)
    (slots : List (Option SlotCard)) (cardId : Nat) :
    List Card × List (Option SlotCard) :=
  if !isPlaying || isPaused then (cards, slots)
  else
    match cards.find? fun c => decide (c.id = cardId) with
    | none => (cards, slots)
    | some card =>
      if card.isDisabled then (cards, slots)
      else
        match slots.findIdx? fun s => decide (s = none) with
        | none => (cards, slots)
        | some emptyIndex =>
          let slots1 := slots.set emptyIndex (some ⟨card.id, card.type⟩)
          let events := elimEvents slots1
          let cards1 := events.foldl
            (fun cs ev =>
              let ids := ev.2.filterMap fun idx => (slots1.getD idx none).map SlotCard.id
              updateCardStates (removeIds cs ids))
            cards
          let slots2 := (checkForElimination slots1).2.1
          let cards2 := updateCardStates (cards1.map fun c =>
            if c.id = card.id then { c with inSlot := true } else c)
          (cards2, slots2)

/-- C9 counterexample — a click event for a card that is already slotted
(`inSlot = true`) but not disabled is **not** ignored: the card reference is
added to the slot queue again, so the slot queue changes. -/
theorem clickStep_slotted_not_ignored :
    (Card.mk 0 0 0 0 0 false true).inSlot = true ∧
    (Card.mk 0 0 0 0 0 false true).isDisabled = false ∧
    (clickStep true false [Card.mk 0 0 0 0 0 false true] (List.replicate 7 none) 0).2 ≠
      List.replicate 7 none := by
  refine ⟨rfl, rfl, ?_⟩
  have h : (clickStep true false [Card.mk 0 0 0 0 0 false true] (List.replicate 7 none) 0).2 =
      [some ⟨0, 0⟩, none, none, none, none, none, none] := rfl
  rw [h]
  decide

/-- C9 (amended) — a click event whose card id resolves to a disabled card
(or to no card at all) is ignored: the card field and the slot queue are left
unchanged.  (The source checks `card && !card.isDisabled` only; it does not
check `inSlot`, so slotted-but-enabled cards are not protected.) -/
theorem clickStep_ignores_disabled_or_missing (isPlaying isPaused : Bool)
    (cards : List Card) (slots : List (Option SlotCard)) (cardId : Nat)
    (h : ∀ c, cards.find? (fun c => decide (c.id = cardId)) = some c → c.isDisabled = true) :
    clickStep isPlaying isPaused cards slots cardId = (cards, slots) := by
  unfold clickStep
  by_cases hg : (!isPlaying || isPaused) = true
  · rw [if_pos hg]
  · rw [if_neg hg]
    cases hf : cards.find? fun c => decide (c.id = cardId) with
    | none => rfl
    | some card =>
      simp only []
      rw [if_pos (h card hf)]

/-- Witness for the amended C9 at a concrete disabled card. -/
theorem clickStep_ignores_disabled_witness :
    (∀ c, [Card.mk 0 0 0 0 0 true false].find? (fun c => decide (c.id = 0)) = some c →
      c.isDisabled = true) ∧
    clickStep true false [Card.mk 0 0 0 0 0 true false] (List.replicate 7 none) 0 =
      ([Card.mk 0 0 0 0 0 true false], List.replicate 7 none) :=
  have hh : ∀ c, [Card.mk 0 0 0 0 0 true false].find? (fun c => decide (c.id = 0)) = some c →
      c.isDisabled = true := by
    intro c hc
    have : ([Card.mk 0 0 0 0 0 true false].find? fun c => decide (c.id = 0)) =
        some (Card.mk 0 0 0 0 0 true false) := rfl
    rw [this] at hc
    injection hc with hc
    rw [← hc]
  ⟨hh, clickStep_ignores_disabled_or_missing true false
    [Card.mk 0 0 0 0 0 true false] (List.replicate 7 none) 0 hh⟩
/-! ## Card-id assignment (`CardManager`) -/

/-- The `CardManager` operations that touch the id space. -/
inductive CMOp where
  | create (type : Nat) (x y : ℚ) (layer : Int)
  | remove (id : Nat)
  | clear
deriving DecidableEq, Repr

structure CMState where
  cards : List Card
  nextId : Nat
deriving Repr

/-- `CardManager` state transitions: `createCard` stores a card under
`this.nextId++`; `removeCard` deletes the entry with the given id (no-op when
absent); `clearAll` empties the map **and resets `nextId` to 0**. -/
def applyOp (s : CMState) : CMOp → CMState
  | .create t x y l =>
      { cards := s.cards ++ [⟨s.nextId, t, x, y, l, false, false⟩], nextId := s.nextId + 1 }
  | .remove i => { s with cards := s.cards.filter fun c => decide (c.id ≠ i) }
  | .clear => { cards := [], nextId := 0 }

/-- A fresh `CardManager` (`cards = new Map()`, `nextId = 0`). -/
def initialCMState : CMState := ⟨[], 0⟩

/-- The ids handed out by successive `createCard` calls while running `ops`
from state `s`, in call order. -/
def assignedIdsFrom (s : CMState) : List CMOp → List Nat
  | [] => []
  | op :: rest =>
    match op with
    | .create .. => s.nextId :: assignedIdsFrom (applyOp s op) rest
    | _ => assignedIdsFrom (applyOp s op) rest

/-- The ids handed out while running `ops` on a fresh manager. -/
def assignedIds (ops : List CMOp) : List Nat := assignedIdsFrom initialCMState ops

/-- Number of `createCard` calls in an operation sequence. -/
def numCreates : List CMOp → Nat
  | [] => 0
  | .create .. :: rest => numCreates rest + 1
  | _ :: rest => numCreates rest

/-- C10 counterexample — `clearAll` resets `nextId` to 0, so the session
`createCard; clearAll; createCard` assigns id 0 to two distinct card
creations: the assigned-id trace is `[0, 0]`, which has a duplicate. -/
theorem clearAll_reuses_ids :
    assignedIds [CMOp.create 0 0 0 0, CMOp.clear, CMOp.create 0 0 0 0] = [0, 0] ∧
    ¬ (assignedIds [CMOp.create 0 0 0 0, CMOp.clear, CMOp.create 0 0 0 0]).Nodup := by
  have h : assignedIds [CMOp.create 0 0 0 0, CMOp.clear, CMOp.create 0 0 0 0] = [0, 0] := rfl
  refine ⟨h, ?_⟩
  rw [h]
  decide

/-- In a `clearAll`-free run the assigned ids are the consecutive range
starting at the current `nextId`. -/
theorem assignedIdsFrom_eq_range' (ops : List CMOp) :
    (∀ op ∈ ops, op ≠ CMOp.clear) →
    ∀ s : CMState, assignedIdsFrom s ops = List.range' s.nextId (numCreates ops) := by
  induction ops with
  | nil => intro _ s; rfl
  | cons op rest ih =>
    intro h s
    have hrest : ∀ o ∈ rest, o ≠ CMOp.clear := fun o ho => h o (List.mem_cons_of_mem _ ho)
    cases op with
    | create t x y l =>
      show s.nextId :: assignedIdsFrom (applyOp s (.create t x y l)) rest = _
      rw [ih hrest]
      rfl
    | remove i =>
      show assignedIdsFrom (applyOp s (.remove i)) rest = _
      rw [ih hrest]
      rfl
    | clear => exact absurd rfl (h _ (List.mem_cons_self _ _))

/-- C10 (amended) — within any operation sequence containing no `clearAll`
(`createCard` and `removeCard` only), card ids are assigned strictly
monotonically at creation and no id is ever assigned to two distinct card
creations; `clearAll` resets the id counter, so ids are reused across a
`clearAll` even within one session. -/
theorem assignedIds_monotone_unique (ops : List CMOp)
    (h : ∀ op ∈ ops, op ≠ CMOp.clear) :
    List.Pairwise (· < ·) (assignedIds ops) ∧ (assignedIds ops).Nodup := by
  have hr : assignedIds ops = List.range' 0 (numCreates ops) :=
    assignedIdsFrom_eq_range' ops h initialCMState
  rw [hr]
  exact ⟨List.pairwise_lt_range' 0 (numCreates ops), List.nodup_range' 0 (numCreates ops)⟩

/-- Witness for the amended C10 on a concrete create/remove/create run. -/
theorem assignedIds_monotone_unique_witness :
    (∀ op ∈ [CMOp.create 0 0 0 0, CMOp.remove 0, CMOp.create 1 0 0 0], op ≠ CMOp.clear) ∧
    (List.Pairwise (· < ·)
        (assignedIds [CMOp.create 0 0 0 0, CMOp.remove 0, CMOp.create 1 0 0 0]) ∧
      (assignedIds [CMOp.create 0 0 0 0, CMOp.remove 0, CMOp.create 1 0 0 0]).Nodup) :=
  have hh : ∀ op ∈ [CMOp.create 0 0 0 0, CMOp.remove 0, CMOp.create 1 0 0 0],
      op ≠ CMOp.clear := by
    intro op hop
    simp only [List.mem_cons, List.not_mem_nil, or_false] at hop
    rcases hop with rfl | rfl | rfl <;> intro hc <;> cases hc
  ⟨hh, assignedIds_monotone_unique _ hh⟩


end TileGame
